import Mathlib

/-!
Shallow embedding of the income-investing portfolio analyzer
(`data_fetcher.py`, `verification.py`, `Analysis.py`) in Lean 4.

Modelling conventions:
* Python strings are `List Char` (written `Str`), so suffix tests and
  concatenation are ordinary list operations.
* Calendar dates are integers (`ℤ`, an abstract day ordinal); prices and
  money amounts are exact rationals (`ℚ`).
* The network calls (`yf.download`, `Ticker.history`, `Ticker.dividends`, …)
  are environments: functions from ticker strings (and date ranges) to
  `Except` values; a `.error` models a raised exception caught by the
  surrounding `try`, `.ok` models the returned data frame as a list of rows.
* Python's fallible operations (division by zero) are modelled with
  `Except`; `round(x, n)` is modelled by exact banker's rounding on `ℚ`.
-/

/-- Python strings, modelled as lists of characters. -/
abbrev Str := List Char

namespace Analyzer

/-! ## `data_fetcher.get_international_ticker_formats` (lines 10-30) -/

/-- The recognized exchange suffixes checked by
`any(symbol.endswith(suffix) for suffix in ['.TO', '.TSE', '.AX', '.L', '.NE'])`. -/
def recognizedSuffixes : List Str :=
  [".TO".data, ".TSE".data, ".AX".data, ".L".data, ".NE".data]

/-- The NEO-exchange exception set `['HHIS', 'MSTE']`. -/
def neoSymbols : List Str := ["HHIS".data, "MSTE".data]

/-- Embedding of `get_international_ticker_formats(symbol)` from
`data_fetcher.py` lines 10-30: start with `[symbol]`, append the four
exchange-suffix variants when no recognized suffix is already present,
then append the `.NE` variant for the NEO exception set. -/
def get_international_ticker_formats (symbol : Str) : List Str :=
  let symbols_to_try := [symbol]
  let symbols_to_try :=
    if ¬ (recognizedSuffixes.any fun suffix => suffix.isSuffixOf symbol) then
      symbols_to_try ++ [symbol ++ ".TO".data, symbol ++ ".TSE".data,
        symbol ++ ".AX".data, symbol ++ ".L".data]
    else symbols_to_try
  if symbol ∈ neoSymbols then symbols_to_try ++ [symbol ++ ".NE".data]
  else symbols_to_try

/-! ## Python `round(x, n)` on exact rationals -/

/-- Banker's rounding of a rational to an integer (Python `round`'s tie rule:
ties go to the even integer). -/
def bankersRound (q : ℚ) : ℤ :=
  let f : ℤ := ⌊q⌋
  let frac : ℚ := q - f
  if frac < 1/2 then f
  else if 1/2 < frac then f + 1
  else if f % 2 = 0 then f else f + 1

/-- Embedding of Python `round(x, n)` on exact rationals. -/
def pyRound (q : ℚ) (n : ℕ) : ℚ :=
  (bankersRound (q * (10 : ℚ) ^ n) : ℚ) / (10 : ℚ) ^ n

/-! ## `data_fetcher.get_dividends_for_period` (lines 40-108) -/

/-- A dividend series row: (ex-date, per-share amount), the shape of
`yf_ticker.dividends`. -/
abbrev DivRow := ℤ × ℚ

/-- Environment for the dividend fetch: `yf.Ticker(ticker).dividends`, per
ticker format; `.error` models a raised exception (caught and skipped),
`.ok` the returned series. -/
structure DivEnv where
  dividends : Str → Except Str (List DivRow)

/-- The result dict of `get_dividends_for_period`. `dividend_per_share` is
present only on the non-empty-period path; `error` only on the outer
exception path (unreachable in this model). -/
structure DivResult where
  total_dividends : ℚ
  dividend_per_share : Option ℚ
  dividend_count : ℕ
  success : Bool
  error : Option Str
  deriving Repr, DecidableEq

/-- The `for ticker in symbols_to_try: ... if not dividends.empty: break`
loop (lines 48-59): returns the series of the first ticker format whose
fetch succeeds with a non-empty series; `none` models the `for`-`else`
branch (no `break` happened). -/
def findDivSeries (env : DivEnv) : List Str → Option (List DivRow)
  | [] => none
  | ticker :: rest =>
    match env.dividends ticker with
    | .error _ => findDivSeries env rest
    | .ok dividends =>
      if ¬ dividends.isEmpty then some dividends else findDivSeries env rest

/-- The period filter
`dividends[(dividends.index >= start_dt) & (dividends.index <= end_dt)]`
(line 82), both bounds inclusive. -/
def periodDividends (dividends : List DivRow) (start_dt end_dt : ℤ) : List DivRow :=
  dividends.filter fun d => start_dt ≤ d.1 ∧ d.1 ≤ end_dt

/-- The `{'total_dividends': 0.0, 'dividend_count': 0, 'success': True}`
dict returned on both zero paths (lines 63-67 and 86-90). -/
def zeroDivResult : DivResult :=
  { total_dividends := 0, dividend_per_share := none, dividend_count := 0,
    success := true, error := none }

/-- Embedding of `get_dividends_for_period(symbol, start_date, end_date,
shares_owned)` from `data_fetcher.py` lines 40-108.  Timezone localization
of the bounds (lines 74-79) is the identity here because dates are already
comparable integers. -/
def get_dividends_for_period (env : DivEnv) (symbol : Str)
    (start_date end_date : ℤ) (shares_owned : ℚ) : DivResult :=
  let symbols_to_try := get_international_ticker_formats symbol
  match findDivSeries env symbols_to_try with
  | none => zeroDivResult
  | some dividends =>
    let period_dividends := periodDividends dividends start_date end_date
    if period_dividends.isEmpty then zeroDivResult
    else
      let total_dividend_per_share := (period_dividends.map Prod.snd).sum
      let total_dividends_collected := total_dividend_per_share * shares_owned
      { total_dividends := total_dividends_collected,
        dividend_per_share := some total_dividend_per_share,
        dividend_count := period_dividends.length,
        success := true, error := none }

/-! ## `data_fetcher.get_historical_price_with_fallback` (lines 242-328) -/

/-- A price-frame row: (trading date, opening price), the shape of the
frames returned by `yf.download`. -/
abbrev PriceRow := ℤ × ℚ

/-- Environment for the historical fetch: `yf.download(ticker, start, end)`
plus `pd.Timestamp.today()`.  `.error` models a raised exception (caught by
the per-ticker `try`), `.ok` the returned frame as date-ordered rows. -/
structure HistEnv where
  download : Str → ℤ → ℤ → Except Str (List PriceRow)
  today : ℤ

/-- The result dict of `get_historical_price_with_fallback`. -/
structure HistResult where
  price : Option ℚ
  date : Option ℤ
  ticker : Option Str
  is_fallback : Bool
  error : Option Str
  deriving Repr, DecidableEq

/-- The error message
`f"No data available with any ticker format. Last error: {last_error}"`
(line 317); Python renders a `None` last error as the text `None`. -/
def allFailedMsg (last_error : Option Str) : Str :=
  "No data available with any ticker format. Last error: ".data ++
    (match last_error with
     | none => "None".data
     | some e => e)

/-- The `for ticker in symbols_to_try` loop of
`get_historical_price_with_fallback` (lines 253-318), carrying `last_error`
across iterations.  For each ticker: try the narrow window
`[preferred_date, preferred_date + 5 days)`; on non-empty data return the
first row's open with `is_fallback = (actual_date != preferred_date)`; on
empty data widen to `[preferred_date - 90 days, today]` and on non-empty
data return the first row's open with `is_fallback = True`; exceptions set
`last_error` and move to the next ticker; an empty wide frame moves on with
`last_error` unchanged. -/
def histLoop (env : HistEnv) (preferred_date : ℤ) :
    List Str → Option Str → HistResult
  | [], last_error =>
    { price := none, date := none, ticker := none, is_fallback := false,
      error := some (allFailedMsg last_error) }
  | ticker :: rest, last_error =>
    match env.download ticker preferred_date (preferred_date + 5) with
    | .error e => histLoop env preferred_date rest (some e)
    | .ok data =>
      match data with
      | row :: _ =>
        { price := some row.2, date := some row.1, ticker := some ticker,
          is_fallback := decide (row.1 ≠ preferred_date), error := none }
      | [] =>
        match env.download ticker (preferred_date - 90) env.today with
        | .error e => histLoop env preferred_date rest (some e)
        | .ok [] => histLoop env preferred_date rest last_error
        | .ok (row :: _) =>
          { price := some row.2, date := some row.1, ticker := some ticker,
            is_fallback := true, error := none }

/-- Embedding of `get_historical_price_with_fallback(symbol, preferred_date)`
from `data_fetcher.py` lines 242-328. -/
def get_historical_price_with_fallback (env : HistEnv) (symbol : Str)
    (preferred_date : ℤ) : HistResult :=
  histLoop env preferred_date (get_international_ticker_formats symbol) none

/-- Python truthiness of the optional error string in
`if result['error']:` — `None` and the empty string are falsy. -/
def strTruthy : Option Str → Bool
  | none => false
  | some s => ¬ s.isEmpty

/-- Embedding of the legacy wrapper `get_historical_price(symbol, date)`
from `data_fetcher.py` lines 330-335. -/
def get_historical_price (env : HistEnv) (symbol : Str) (date : ℤ) :
    Option ℚ × Option Str :=
  let result := get_historical_price_with_fallback env symbol date
  if strTruthy result.error then (none, result.error)
  else (result.price, none)

/-! ## `data_fetcher.process_etf_data` (lines 337-413) -/

/-- Python runtime errors that the record builder's body can raise
(uncaught inside `process_etf_data` itself). -/
inductive PyError where
  | zeroDivisionError
  | noneTypeError
  deriving Repr, DecidableEq

/-- Result of `get_current_market_price`: `some price` models a dict with
`success: True` and that `price`; `none` models a failure dict. -/
abbrev CurrentData := Option ℚ

/-- The fields of the `get_etf_additional_info` result dict consumed by
`process_etf_data` (via `.get`). -/
structure AdditionalInfo where
  nav : Option ℚ
  formatted_size : Str
  etf_size_millions : ℚ

/-- The record dict built by `process_etf_data` on success (lines 394-413);
rounded display fields keep their `round(_, n)` as `pyRound`. -/
structure EtfRecord where
  symbol_display : Str
  initial_price_r : ℚ
  current_price_r : ℚ
  nav_r : Option ℚ
  etf_size : Str
  etf_size_millions : ℚ
  shares_r : ℚ
  current_value_r : ℚ
  dividends_r : ℚ
  gain_loss_r : ℚ
  gain_loss_pct_r : ℚ
  total_return_r : ℚ
  total_return_pct_r : ℚ
  verified : Str
  actual_start_date : ℤ
  is_fallback : Bool
  original_symbol : Str
  deriving Repr, DecidableEq

/-- Embedding of `process_etf_data(symbol, start_date, end_date,
investment_amount)` from `data_fetcher.py` lines 337-413, parameterised by
the results of its four sub-calls (`get_historical_price_with_fallback`,
`get_current_market_price`, `get_etf_additional_info`,
`get_dividends_for_period`).  Returns `.ok (.inr err)` for the
`return None, price_result['error']` path, `.ok (.inl record)` for the
success path, and `.error` when a Python division by zero (or a `None`
price on the success path) would raise. -/
def process_etf_data (symbol : Str) (price_result : HistResult)
    (current_data : CurrentData) (additional_info : AdditionalInfo)
    (dividend_data : DivResult) (investment_amount : ℚ) :
    Except PyError (EtfRecord ⊕ Str) :=
  match price_result.error with
  | some e => .ok (.inr e)
  | none =>
    match price_result.price, price_result.date with
    | some initial_price, some actual_start_date =>
      -- shares_purchased = investment_amount / initial_price  (line 353)
      if initial_price = 0 then .error .zeroDivisionError else
      let shares_purchased := investment_amount / initial_price
      match current_data with
      | some cp =>
        -- gain_loss_pct = (gain_loss / investment_amount) * 100  (line 363)
        if investment_amount = 0 then .error .zeroDivisionError else
        let current_price := cp
        let current_value := shares_purchased * current_price
        let gain_loss := current_value - investment_amount
        let gain_loss_pct := gain_loss / investment_amount * 100
        let dividends_collected := dividend_data.total_dividends
        let total_return := gain_loss + dividends_collected
        let total_return_pct := total_return / investment_amount * 100
        .ok (.inl
          { symbol_display :=
              if price_result.is_fallback then symbol ++ "**".data else symbol,
            initial_price_r := pyRound initial_price 2,
            current_price_r := pyRound current_price 2,
            nav_r := match additional_info.nav with
              | some v => if v = 0 then none else some (pyRound v 2)
              | none => none,
            etf_size := additional_info.formatted_size,
            etf_size_millions := additional_info.etf_size_millions,
            shares_r := pyRound shares_purchased 2,
            current_value_r := pyRound current_value 2,
            dividends_r := pyRound dividends_collected 2,
            gain_loss_r := pyRound gain_loss 2,
            gain_loss_pct_r := pyRound gain_loss_pct 1,
            total_return_r := pyRound total_return 2,
            total_return_pct_r := pyRound total_return_pct 1,
            verified := "✅ VERIFIED".data,
            actual_start_date := actual_start_date,
            is_fallback := price_result.is_fallback,
            original_symbol := symbol })
      | none =>
        let current_price : ℚ := 0
        let current_value : ℚ := 0
        let gain_loss : ℚ := 0
        let gain_loss_pct : ℚ := 0
        let dividends_collected := dividend_data.total_dividends
        let total_return := gain_loss + dividends_collected
        -- total_return_pct = ... if current_data.get('success') else 0.0 (line 389)
        let total_return_pct : ℚ := 0
        .ok (.inl
          { symbol_display :=
              if price_result.is_fallback then symbol ++ "**".data else symbol,
            initial_price_r := pyRound initial_price 2,
            current_price_r := pyRound current_price 2,
            nav_r := match additional_info.nav with
              | some v => if v = 0 then none else some (pyRound v 2)
              | none => none,
            etf_size := additional_info.formatted_size,
            etf_size_millions := additional_info.etf_size_millions,
            shares_r := pyRound shares_purchased 2,
            current_value_r := pyRound current_value 2,
            dividends_r := pyRound dividends_collected 2,
            gain_loss_r := pyRound gain_loss 2,
            gain_loss_pct_r := pyRound gain_loss_pct 1,
            total_return_r := pyRound total_return 2,
            total_return_pct_r := pyRound total_return_pct 1,
            verified := "✅ VERIFIED".data,
            actual_start_date := actual_start_date,
            is_fallback := price_result.is_fallback,
            original_symbol := symbol })
    | _, _ => .error .noneTypeError

/-! ## `verification.verify_price_with_alternative_source` (lines 9-118) -/

/-- The ticker-format list built inside
`verify_price_with_alternative_source` (lines 18-27): the base symbol, `.TO`
and `.TSE` variants unless already suffixed with one of those two, and `.NE`
for the NEO exception set. -/
def verificationFormats (symbol : Str) : List Str :=
  let symbols_to_try := [symbol]
  let symbols_to_try :=
    if ¬ (".TO".data.isSuffixOf symbol) ∧ ¬ (".TSE".data.isSuffixOf symbol) then
      symbols_to_try ++ [symbol ++ ".TO".data, symbol ++ ".TSE".data]
    else symbols_to_try
  if symbol ∈ neoSymbols then symbols_to_try ++ [symbol ++ ".NE".data]
  else symbols_to_try

/-- Environment for the verifier's two retrieval methods:
`Ticker(fmt).history(start=target, end=target+5)` and
`yf.download(fmt, start=target-2, end=target+4)`; `.error` models a raised
exception (caught per method). -/
structure VerEnv where
  history : Str → Except Str (List PriceRow)
  download : Str → Except Str (List PriceRow)

/-- The closest-date scan of Method 2 (lines 57-65): fold over the frame's
rows keeping the row whose date has the strictly smallest absolute
difference to the target (first such row wins ties). -/
def closestScan (target_ts : ℤ) (rows : List PriceRow) :
    Option PriceRow × Option ℤ :=
  rows.foldl
    (fun acc idx =>
      let diff := |idx.1 - target_ts|
      match acc.2 with
      | none => (some idx, some diff)
      | some min_diff => if diff < min_diff then (some idx, some diff) else acc)
    (none, none)

/-- Price collected by Method 1 for one ticker format (lines 36-46):
the first row's open of a non-empty history frame. -/
def method1Price (env : VerEnv) (ticker_format : Str) : Option ℚ :=
  match env.history ticker_format with
  | .error _ => none
  | .ok [] => none
  | .ok (row :: _) => some row.2

/-- Price collected by Method 2 for one ticker format (lines 48-73): the
open of the row closest in date to the target in the ranged download. -/
def method2Price (env : VerEnv) (target_date : ℤ) (ticker_format : Str) :
    Option ℚ :=
  match env.download ticker_format with
  | .error _ => none
  | .ok [] => none
  | .ok rows =>
    match (closestScan target_date rows).1 with
    | none => none
    | some row => some row.2

/-- The price-collection loop (lines 29-77): per ticker format append
Method 1's then Method 2's price to the accumulator, and `break` as soon as
the accumulator is non-empty. -/
def collectLoop (env : VerEnv) (target_date : ℤ) (prices : List ℚ) :
    List Str → List ℚ
  | [] => prices
  | ticker_format :: rest =>
    let prices := prices ++ (method1Price env ticker_format).toList
    let prices := prices ++ (method2Price env target_date ticker_format).toList
    if ¬ prices.isEmpty then prices else collectLoop env target_date prices rest

/-- The result dict of `verify_price_with_alternative_source`. -/
structure VerificationOutcome where
  average : Option ℚ
  verified : Bool
  prices : List ℚ
  error : Option Str
  discrepancy : Option ℚ
  deriving Repr, DecidableEq

/-- Python `max` over a non-empty sequence (`max(...)` on the generator of
relative deviations, line 95); the empty case never arises at its call
site. -/
def pyMax : List ℚ → ℚ
  | [] => 0
  | x :: xs => xs.foldl max x

/-- The classification of the collected prices (lines 79-114), mirroring
the `len(prices)` checks of the source: zero prices give the error outcome;
one price gives an unverified outcome carrying `prices[0]` as average; two
or more give the arithmetic mean and
`verified = (max |p - avg| / avg ≤ 0.01)`, recording the discrepancy when
over tolerance. -/
def classifyPrices (prices : List ℚ) : VerificationOutcome :=
  if prices.length = 0 then
    { average := none, verified := false, prices := [],
      error := some ("All verification methods failed".data), discrepancy := none }
  else if prices.length = 1 then
    { average := some prices.headI, verified := false, prices := prices,
      error := none, discrepancy := none }
  else
    let avg_price := prices.sum / prices.length
    let max_diff := pyMax (prices.map fun p => |p - avg_price| / avg_price)
    if max_diff ≤ 1/100 then
      { average := some avg_price, verified := true, prices := prices,
        error := none, discrepancy := none }
    else
      { average := some avg_price, verified := false, prices := prices,
        error := none, discrepancy := some max_diff }

/-- Embedding of `verify_price_with_alternative_source(symbol, target_date)`
from `verification.py` lines 9-118. -/
def verify_price_with_alternative_source (env : VerEnv) (symbol : Str)
    (target_date : ℤ) : VerificationOutcome :=
  classifyPrices (collectLoop env target_date [] (verificationFormats symbol))

/-- Embedding of `get_verification_status(verification_result)` from
`verification.py` lines 120-127. -/
def get_verification_status (verification_result : VerificationOutcome) : Str :=
  if verification_result.verified then "✅ VERIFIED".data
  else if verification_result.average ≠ none then "🟡 ALT SOURCE".data
  else "🔴 NO DATA".data

/-! ## `Analysis.main` (lines 16-135)

The loop body of `main` appends one result dict per symbol through three
paths: primary success, verifier fallback with an average, and complete
failure.  Two indentation faults in the source are modelled as the file
parses after minimal repair of the first:

* line 26 (`results = []`) is dedented to column 0 inside `main`, which
  makes the module raise `IndentationError` at import; the model assumes
  the evidently intended `results = []` initialisation so that the rest of
  the function is expressible at all;
* lines 105-117 (`results.append({... '🔴 ERROR'})`) are dedented out of
  the `except` block *and* out of the `for` loop, so a symbol whose
  processing raises gets no record inside the loop, and one extra
  `'🔴 ERROR'` record for the loop's final symbol is appended
  unconditionally after the loop.
-/

/-- The fields of a `results` row that the working/failed partition and the
claims consume. -/
structure MainRecord where
  symbol : Str
  initial_price_r : ℚ
  shares_r : ℚ
  verified : Str
  deriving Repr, DecidableEq

/-- Outcome of the `try` body for one symbol: `process_etf_data` returned a
record, or it returned an error and `verify_price_with_alternative_source`
produced the given outcome, or an unexpected exception was raised. -/
inductive EtfOutcome where
  | primary (record : EtfRecord)
  | fallback (verification : VerificationOutcome)
  | raised
  deriving Repr

/-- The per-symbol record appends of `main`'s loop body (lines 32-103):
primary success appends the processed record; a fallback with an average
appends the alternative-source record (price and shares recomputed from
the average); a fallback without an average appends the `'🔴 NO DATA'`
record; an exception appends nothing, because the `'🔴 ERROR'` append is
dedented out of the `except` block. -/
def loopBodyRecords (investment_per_etf : ℚ) (etf : Str)
    (outcome : EtfOutcome) : List MainRecord :=
  match outcome with
  | .primary record =>
    [{ symbol := record.symbol_display, initial_price_r := record.initial_price_r,
       shares_r := record.shares_r, verified := record.verified }]
  | .fallback verification =>
    match verification.average with
    | some initial_price =>
      [{ symbol := etf, initial_price_r := pyRound initial_price 2,
         shares_r := pyRound (investment_per_etf / initial_price) 2,
         verified := get_verification_status verification }]
    | none =>
      [{ symbol := etf, initial_price_r := 0, shares_r := 0,
         verified := "🔴 NO DATA".data }]
  | .raised => []

/-- The `'🔴 ERROR'` record of lines 105-117 (appended once, after the
loop, for the final loop variable). -/
def errorRecord (etf : Str) : MainRecord :=
  { symbol := etf, initial_price_r := 0, shares_r := 0,
    verified := "🔴 ERROR".data }

/-- The full `results` list accumulated by `main` over the symbol list
(given each symbol's `try`-body outcome), including the stray post-loop
`'🔴 ERROR'` append; with an empty symbol list the post-loop reference to
the loop variable raises `NameError`, modelled as `none`. -/
def mainResults (investment_per_etf : ℚ) (outcome : Str → EtfOutcome) :
    List Str → Option (List MainRecord)
  | [] => none
  | etf0 :: rest =>
    let etfs := etf0 :: rest
    some ((etfs.flatMap fun etf => loopBodyRecords investment_per_etf etf (outcome etf)) ++
      [errorRecord (etfs.getLast (by simp [etfs]))])

/-- The failed-row predicate of lines 123-124:
`results_df['Verified'].str.contains('🔴')`. -/
def isFailedRecord (record : MainRecord) : Bool :=
  record.verified.contains '🔴'

/-- The working partition (line 123). -/
def workingEtfs (records : List MainRecord) : List MainRecord :=
  records.filter fun r => ¬ isFailedRecord r

/-- The failed partition (line 124). -/
def failedEtfs (records : List MainRecord) : List MainRecord :=
  records.filter isFailedRecord

/-! ## Concrete instances used to exercise the definitions -/

/-- A verifier environment where both methods agree: Method 1 returns an
opening price of 100.00 and Method 2 one of 100.50 for every ticker. -/
def verEnvAgree : VerEnv :=
  { history := fun _ => .ok [(0, 100)],
    download := fun _ => .ok [(0, 201/2)] }

/-- A verifier environment with a 3% disagreement: Method 1 returns 100.00
and Method 2 returns 103.00. -/
def verEnvDisagree : VerEnv :=
  { history := fun _ => .ok [(0, 100)],
    download := fun _ => .ok [(0, 103)] }

/-- A verifier environment where every retrieval fails. -/
def verEnvFail : VerEnv :=
  { history := fun _ => .error ("no data".data),
    download := fun _ => .error ("no data".data) }

/-- A verifier environment where only Method 1 produces a price (42.00). -/
def verEnvSingle : VerEnv :=
  { history := fun _ => .ok [(0, 42)],
    download := fun _ => .ok [] }

/-- A historical-price environment where the narrow preferred-date window
(start 0, the model's `2025-01-02`) is empty but the widened 90-day-lookback
window finds its first trading day 62 days later (the model's `2025-03-05`)
at an opening price of 10.00. -/
def histEnvWidened : HistEnv :=
  { download := fun _ start _ => if start = 0 then .ok [] else .ok [(62, 10)],
    today := 100 }

/-- A historical-price environment where the preferred date 0 itself trades
at 50.00. -/
def histEnvExact : HistEnv :=
  { download := fun _ _ _ => .ok [(0, 50)], today := 100 }

/-- A dividend environment whose every ticker has the three-payment series
with ex-dates 0, 10 and 20 paying 1.00, 2.00 and 4.00 per share. -/
def divEnvThree : DivEnv :=
  { dividends := fun _ => .ok [(0, 1), (10, 2), (20, 4)] }

/-- A dividend environment where every fetch raises. -/
def divEnvRaise : DivEnv :=
  { dividends := fun _ => .error ("rate limited".data) }

/-- A successfully processed example record, as `process_etf_data` would
emit for a symbol bought at 50.00, now at 55.00, with no dividends. -/
def exampleRecord : EtfRecord :=
  { symbol_display := "FSCO".data, initial_price_r := 50,
    current_price_r := 55, nav_r := none, etf_size := "N/A".data,
    etf_size_millions := 0, shares_r := 200, current_value_r := 11000,
    dividends_r := 0, gain_loss_r := 1000, gain_loss_pct_r := 10,
    total_return_r := 1000, total_return_pct_r := 10,
    verified := "✅ VERIFIED".data, actual_start_date := 0,
    is_fallback := false, original_symbol := "FSCO".data }

/-- An `AdditionalInfo` with no NAV and no size, the all-failed shape. -/
def addInfoNone : AdditionalInfo :=
  { nav := none, formatted_size := "N/A".data, etf_size_millions := 0 }

/-- The shape of every successful historical-price resolution: some ticker
variant either produced data in the narrow preferred-date window — then the
quote is its first row and `is_fallback` is false exactly when that row's
date is the preferred date — or the narrow window was empty and the widened
`[preferred - 90, today]` window produced data — then the quote is the wide
window's first trading day and `is_fallback` is always true. -/
def resolvedFromBranch (env : HistEnv) (symbol : Str) (preferred_date : ℤ) : Prop :=
  ∃ t row rest_,
    ((env.download t preferred_date (preferred_date + 5) = .ok (row :: rest_) ∧
      (get_historical_price_with_fallback env symbol preferred_date).date
        = some row.1 ∧
      (get_historical_price_with_fallback env symbol preferred_date).price
        = some row.2 ∧
      ((get_historical_price_with_fallback env symbol preferred_date).is_fallback
          = false ↔ row.1 = preferred_date)) ∨
     (env.download t preferred_date (preferred_date + 5) = .ok [] ∧
      env.download t (preferred_date - 90) env.today = .ok (row :: rest_) ∧
      (get_historical_price_with_fallback env symbol preferred_date).date
        = some row.1 ∧
      (get_historical_price_with_fallback env symbol preferred_date).price
        = some row.2 ∧
      (get_historical_price_with_fallback env symbol preferred_date).is_fallback
        = true))

/-! ## General lemmas about the verifier -/

/-- The classification never alters the collected price list it reports. -/
theorem classifyPrices_prices (l : List ℚ) : (classifyPrices l).prices = l := by
  unfold classifyPrices
  split
  · rename_i h
    exact (List.length_eq_zero.mp h).symm
  · split
    · rfl
    · dsimp only
      split <;> rfl

/-- Concrete run of the verifier where the two methods return 100.00 and
100.50: the average is 100.25 and the quote verifies. -/
theorem verifyAgree_eval :
    verify_price_with_alternative_source verEnvAgree ("AAA".data) 0 =
      { average := some (401/4), verified := true, prices := [100, 201/2],
        error := none, discrepancy := none } := by
  have hc : collectLoop verEnvAgree 0 [] (verificationFormats ("AAA".data))
      = [100, 201/2] := rfl
  have hv : verify_price_with_alternative_source verEnvAgree ("AAA".data) 0
      = classifyPrices [100, 201/2] := by
    rw [verify_price_with_alternative_source, hc]
  rw [hv]
  unfold classifyPrices
  rw [if_neg (by norm_num), if_neg (by norm_num)]
  dsimp only
  norm_num [pyMax, abs]

/-- Concrete run of the verifier where the two methods return 100.00 and
103.00: the 1% tolerance is exceeded and the quote does not verify. -/
theorem verifyDisagree_eval :
    verify_price_with_alternative_source verEnvDisagree ("AAA".data) 0 =
      { average := some (203/2), verified := false, prices := [100, 103],
        error := none, discrepancy := some (3/203) } := by
  have hc : collectLoop verEnvDisagree 0 [] (verificationFormats ("AAA".data))
      = [100, 103] := rfl
  have hv : verify_price_with_alternative_source verEnvDisagree ("AAA".data) 0
      = classifyPrices [100, 103] := by
    rw [verify_price_with_alternative_source, hc]
  rw [hv]
  unfold classifyPrices
  rw [if_neg (by norm_num), if_neg (by norm_num)]
  dsimp only
  norm_num [pyMax, abs]

/-- C1: `verify_price_with_alternative_source` classifies the collected
prices exactly as specified: zero prices give `verified = false` with the
error `'All verification methods failed'`; one price gives
`verified = false` with that price as average; two or more give the
arithmetic mean as average and `verified = true` iff the maximum relative
deviation from the mean is at most 1%.  In particular collected prices
100.00 and 100.50 give average 100.25 and `verified = true`, while 100.00
and 103.00 give `verified = false`. -/
theorem verify_classification_spec (env : VerEnv) (symbol : Str) (target_date : ℤ) :
    let prices := collectLoop env target_date [] (verificationFormats symbol)
    let out := verify_price_with_alternative_source env symbol target_date
    (prices = [] →
      out.verified = false ∧
      out.error = some ("All verification methods failed".data)) ∧
    (∀ p : ℚ, prices = [p] → out.verified = false ∧ out.average = some p) ∧
    (2 ≤ prices.length →
      out.average = some (prices.sum / prices.length) ∧
      (out.verified = true ↔
        pyMax (prices.map fun p =>
          |p - prices.sum / prices.length| / (prices.sum / prices.length))
          ≤ 1/100)) ∧
    (verify_price_with_alternative_source verEnvAgree ("AAA".data) 0).average
      = some (401/4) ∧
    (verify_price_with_alternative_source verEnvAgree ("AAA".data) 0).verified
      = true ∧
    (verify_price_with_alternative_source verEnvDisagree ("AAA".data) 0).verified
      = false := by
  intro prices out
  have hout : out = classifyPrices prices := rfl
  refine ⟨?_, ?_, ?_, by rw [verifyAgree_eval], by rw [verifyAgree_eval],
    by rw [verifyDisagree_eval]⟩
  · intro h
    rw [hout, h]
    exact ⟨rfl, rfl⟩
  · intro p h
    rw [hout, h]
    exact ⟨rfl, rfl⟩
  · intro h
    rw [hout]
    unfold classifyPrices
    rw [if_neg (by omega), if_neg (by omega)]
    dsimp only
    constructor
    · split <;> rfl
    · split
      · rename_i hcond
        simpa using hcond
      · rename_i hcond
        simpa using hcond

/-- One unfolding step of the verifier's collection loop. -/
theorem collectLoop_cons (env : VerEnv) (target : ℤ) (acc : List ℚ)
    (t : Str) (rest : List Str) :
    collectLoop env target acc (t :: rest) =
      (if ¬ ((acc ++ (method1Price env t).toList ++
          (method2Price env target t).toList).isEmpty) then
        acc ++ (method1Price env t).toList ++ (method2Price env target t).toList
      else
        collectLoop env target
          (acc ++ (method1Price env t).toList ++ (method2Price env target t).toList)
          rest) := rfl

/-- Structure of the collection loop started on an empty accumulator: it
returns at most two prices, and any non-empty return comes entirely from
the first ticker format for which one of the two methods produced a
price. -/
theorem collectLoop_first_variant (env : VerEnv) (target : ℤ) :
    ∀ fmts : List Str,
      (collectLoop env target [] fmts).length ≤ 2 ∧
      (collectLoop env target [] fmts ≠ [] →
        ∃ pre t post, fmts = pre ++ t :: post ∧
          (∀ u ∈ pre, method1Price env u = none ∧
            method2Price env target u = none) ∧
          (method1Price env t ≠ none ∨ method2Price env target t ≠ none) ∧
          collectLoop env target [] fmts =
            (method1Price env t).toList ++ (method2Price env target t).toList) := by
  intro fmts
  induction fmts with
  | nil => exact ⟨by simp [collectLoop], fun h => absurd rfl h⟩
  | cons t rest ih =>
    by_cases hnone : method1Price env t = none ∧ method2Price env target t = none
    · obtain ⟨h1, h2⟩ := hnone
      have hstep : collectLoop env target [] (t :: rest) =
          collectLoop env target [] rest := by
        rw [collectLoop_cons]
        simp [h1, h2]
      refine ⟨by rw [hstep]; exact ih.1, fun hne => ?_⟩
      obtain ⟨pre, t', post, hsplit, hpre, hone, heq⟩ :=
        ih.2 (by rw [hstep] at hne; exact hne)
      refine ⟨t :: pre, t', post, by rw [hsplit]; rfl, ?_, hone, by rw [hstep, heq]⟩
      intro u hu
      rcases List.mem_cons.mp hu with h | h
      · subst h; exact ⟨h1, h2⟩
      · exact hpre u h
    · have hne : ¬ (([] ++ (method1Price env t).toList ++
          (method2Price env target t).toList).isEmpty) := by
        rcases not_and_or.mp hnone with h | h
        · cases hm : method1Price env t with
          | none => exact absurd hm h
          | some p => simp [hm]
        · cases hm : method2Price env target t with
          | none => exact absurd hm h
          | some p => simp [hm]
      have hstep : collectLoop env target [] (t :: rest) =
          (method1Price env t).toList ++ (method2Price env target t).toList := by
        rw [collectLoop_cons, if_pos hne]
        simp
      constructor
      · rw [hstep]
        have l1 : (method1Price env t).toList.length ≤ 1 := by
          cases method1Price env t <;> simp
        have l2 : (method2Price env target t).toList.length ≤ 1 := by
          cases method2Price env target t <;> simp
        rw [List.length_append]
        omega
      · intro _
        exact ⟨[], t, rest, rfl, by simp, not_and_or.mp hnone, hstep⟩

/-- C5: every price collected by `verify_price_with_alternative_source`
comes from a single ticker-format variant — the first variant, in order,
for which at least one of the two retrieval methods returned a price — no
later variant is scanned once any price exists, and the collected price
list has length at most 2. -/
theorem single_variant_collection_spec (env : VerEnv) (symbol : Str)
    (target_date : ℤ) :
    let ps := collectLoop env target_date [] (verificationFormats symbol)
    (verify_price_with_alternative_source env symbol target_date).prices = ps ∧
    ps.length ≤ 2 ∧
    (ps ≠ [] →
      ∃ pre t post, verificationFormats symbol = pre ++ t :: post ∧
        (∀ u ∈ pre, method1Price env u = none ∧
          method2Price env target_date u = none) ∧
        (method1Price env t ≠ none ∨ method2Price env target_date t ≠ none) ∧
        ps = (method1Price env t).toList ++ (method2Price env target_date t).toList) := by
  intro ps
  exact ⟨classifyPrices_prices _,
    (collectLoop_first_variant env target_date _).1,
    (collectLoop_first_variant env target_date _).2⟩

/-! ## General lemmas about the historical-price loop -/

/-- Every run of the historical-price loop that ends without an error
returned from one of the two download branches of some ticker. -/
theorem histLoop_success_branch (env : HistEnv) (preferred : ℤ) :
    ∀ (l : List Str) (le : Option Str),
      (histLoop env preferred l le).error = none →
      ∃ t row rest_,
        ((env.download t preferred (preferred + 5) = .ok (row :: rest_) ∧
          histLoop env preferred l le =
            { price := some row.2, date := some row.1, ticker := some t,
              is_fallback := decide (row.1 ≠ preferred), error := none }) ∨
         (env.download t preferred (preferred + 5) = .ok [] ∧
          env.download t (preferred - 90) env.today = .ok (row :: rest_) ∧
          histLoop env preferred l le =
            { price := some row.2, date := some row.1, ticker := some t,
              is_fallback := true, error := none })) := by
  intro l
  induction l with
  | nil => intro le h; simp [histLoop] at h
  | cons t rest ih =>
    intro le h
    simp only [histLoop] at h ⊢
    rcases hd : env.download t preferred (preferred + 5) with e | data
    · simp only [hd] at h ⊢
      exact ih (some e) h
    · cases data with
      | cons row rst =>
        simp only [hd] at h ⊢
        exact ⟨t, row, rst, .inl ⟨hd, rfl⟩⟩
      | nil =>
        simp only [hd] at h ⊢
        rcases hw : env.download t (preferred - 90) env.today with e | wdata
        · simp only [hw] at h ⊢
          exact ih (some e) h
        · cases wdata with
          | cons row rst =>
            simp only [hw] at h ⊢
            exact ⟨t, row, rst, .inr ⟨hd, hw, rfl⟩⟩
          | nil =>
            simp only [hw] at h ⊢
            exact ih le h

/-- Every error message the historical-price loop can return is a
non-empty string. -/
theorem histLoop_error_not_empty (env : HistEnv) (preferred : ℤ) :
    ∀ (l : List Str) (le : Option Str) (e : Str),
      (histLoop env preferred l le).error = some e → e.isEmpty = false := by
  intro l
  induction l with
  | nil =>
    intro le e h
    simp only [histLoop, Option.some.injEq] at h
    subst h
    rfl
  | cons t rest ih =>
    intro le e h
    simp only [histLoop] at h
    rcases hd : env.download t preferred (preferred + 5) with e' | data
    · simp only [hd] at h
      exact ih (some e') e h
    · cases data with
      | cons row rst =>
        simp only [hd] at h
        exact Option.noConfusion h
      | nil =>
        simp only [hd] at h
        rcases hw : env.download t (preferred - 90) env.today with e' | wdata
        · simp only [hw] at h
          exact ih (some e') e h
        · cases wdata with
          | cons row rst =>
            simp only [hw] at h
            exact Option.noConfusion h
          | nil =>
            simp only [hw] at h
            exact ih le e h

/-- C2: whenever the historical price resolver succeeds, the quote came
from the narrow preferred-date window — with `is_fallback = false` exactly
when the resolved date equals the preferred date — or from the widened
`[preferred - 90 days, today]` window, in which case `is_fallback` is
always true; in both branches the returned date is the first trading day
of the window actually used. -/
theorem fallback_flag_spec (env : HistEnv) (symbol : Str) (preferred_date : ℤ)
    (h : (get_historical_price_with_fallback env symbol preferred_date).error
      = none) :
    resolvedFromBranch env symbol preferred_date := by
  obtain ⟨t, row, rest_, hcase⟩ :=
    histLoop_success_branch env preferred_date
      (get_international_ticker_formats symbol) none h
  refine ⟨t, row, rest_, ?_⟩
  rcases hcase with ⟨hd, heq⟩ | ⟨hd, hw, heq⟩
  · left
    have hr : get_historical_price_with_fallback env symbol preferred_date =
        { price := some row.2, date := some row.1, ticker := some t,
          is_fallback := decide (row.1 ≠ preferred_date), error := none } := heq
    rw [hr]
    refine ⟨hd, rfl, rfl, ?_⟩
    simp
  · right
    have hr : get_historical_price_with_fallback env symbol preferred_date =
        { price := some row.2, date := some row.1, ticker := some t,
          is_fallback := true, error := none } := heq
    rw [hr]
    exact ⟨hd, hw, rfl, rfl, rfl⟩

/-- Witness for C2: in `histEnvWidened` the preferred date 0 (the model's
2025-01-02) has no narrow-window data, the widened window first trades on
day 62 (the model's 2025-03-05), and the resolver indeed reports that day
with `is_fallback = true`. -/
theorem fallback_flag_spec_witness :
    resolvedFromBranch histEnvWidened ("FSCO".data) 0 :=
  fallback_flag_spec histEnvWidened ("FSCO".data) 0 rfl

/-- C10: the legacy wrapper `get_historical_price` is equivalent to
`get_historical_price_with_fallback`: it returns `(price, none)` exactly
when the fallback resolver reports `error = none` (and then `price` is the
resolver's price, which is present), and `(none, err)` exactly when the
resolver reports `error = err`. -/
theorem legacy_wrapper_equiv_spec (env : HistEnv) (symbol : Str) (date : ℤ) :
    let r := get_historical_price_with_fallback env symbol date
    (r.error = none → ∃ p, r.price = some p ∧
      get_historical_price env symbol date = (some p, none)) ∧
    (∀ e, r.error = some e →
      get_historical_price env symbol date = (none, some e)) ∧
    get_historical_price env symbol date =
      (match r.error with
       | none => (r.price, none)
       | some e => (none, some e)) := by
  intro r
  have hwrap : get_historical_price env symbol date =
      (if strTruthy r.error then (none, r.error) else (r.price, none)) := rfl
  rcases herr : r.error with _ | e
  · have htr : strTruthy r.error = false := by rw [herr]; rfl
    have hget : get_historical_price env symbol date = (r.price, none) := by
      rw [hwrap, htr]
      simp
    refine ⟨?_, ?_, ?_⟩
    · intro _
      obtain ⟨t, row, rest_, hcase⟩ :=
        histLoop_success_branch env date
          (get_international_ticker_formats symbol) none herr
      rcases hcase with ⟨_, heq⟩ | ⟨_, _, heq⟩ <;>
        exact ⟨row.2, by rw [show r = _ from heq], by rw [hget, show r = _ from heq]⟩
    · intro e he
      exact Option.noConfusion he
    · rw [hget]
  · have hne : e.isEmpty = false :=
      histLoop_error_not_empty env date
        (get_international_ticker_formats symbol) none e herr
    have htr : strTruthy r.error = true := by
      rw [herr]
      simp [strTruthy, hne]
    have hget : get_historical_price env symbol date = (none, some e) := by
      rw [hwrap, htr, if_pos rfl, herr]
    refine ⟨?_, ?_, ?_⟩
    · intro hcontra
      exact Option.noConfusion hcontra
    · intro e' he'
      rw [hget, Option.some_inj.mp he']
    · rw [hget]

/-! ## Dividend aggregation -/

/-- C6: for every dividend series the aggregator uses, a dividend enters
the summed window exactly when its ex-date lies in the inclusive window
`[periodStart, periodEnd]`; in particular a dividend whose ex-date equals
either endpoint is included, and the returned total is the sum over the
window times the shares owned. -/
theorem dividend_window_inclusive_spec (env : DivEnv) (symbol : Str)
    (start_date end_date : ℤ) (shares_owned : ℚ) (series : List DivRow)
    (hfound : findDivSeries env (get_international_ticker_formats symbol)
      = some series)
    (hrange : start_date ≤ end_date) :
    (∀ d : DivRow, d ∈ periodDividends series start_date end_date ↔
      (d ∈ series ∧ start_date ≤ d.1 ∧ d.1 ≤ end_date)) ∧
    (∀ d : DivRow, d ∈ series → (d.1 = start_date ∨ d.1 = end_date) →
      d ∈ periodDividends series start_date end_date) ∧
    (get_dividends_for_period env symbol start_date end_date
        shares_owned).total_dividends
      = ((periodDividends series start_date end_date).map Prod.snd).sum
          * shares_owned := by
  refine ⟨?_, ?_, ?_⟩
  · intro d
    simp [periodDividends, List.mem_filter]
  · intro d hd hor
    simp only [periodDividends, List.mem_filter, decide_eq_true_eq]
    refine ⟨hd, ?_⟩
    rcases hor with h | h <;> rw [h] <;> omega
  · unfold get_dividends_for_period
    dsimp only
    rw [hfound]
    dsimp only
    split
    · rename_i hemp
      rw [List.isEmpty_iff] at hemp
      rw [hemp]
      simp [zeroDivResult]
    · rfl

/-- Witness for C6: with the three-payment series at ex-dates 0, 10 and 20
and the window `[0, 10]`, the endpoint dividends (ex-dates 0 and 10) are
summed — 3.00 per share × 3 shares = 9.00 — while the day-20 one is not. -/
theorem dividend_window_inclusive_spec_witness :
    (get_dividends_for_period divEnvThree ("FSCO".data) 0 10 3).total_dividends
      = 9 := by
  have h := (dividend_window_inclusive_spec divEnvThree ("FSCO".data) 0 10 3
    [(0, 1), (10, 2), (20, 4)] rfl (by decide)).2.2
  rw [h]
  norm_num [periodDividends]

/-- C7: when no ticker-format variant yields a non-empty dividend history,
and also when the first variant with a non-empty history has no dividends
inside the period, the aggregator returns the same
`{total 0.0, count 0, success}` result — the two outcomes are
indistinguishable. -/
theorem dividend_zero_paths_spec (env : DivEnv) (symbol : Str)
    (start_date end_date : ℤ) (shares_owned : ℚ) :
    (findDivSeries env (get_international_ticker_formats symbol) = none →
      get_dividends_for_period env symbol start_date end_date shares_owned
        = zeroDivResult) ∧
    (∀ series,
      findDivSeries env (get_international_ticker_formats symbol) = some series →
      periodDividends series start_date end_date = [] →
      get_dividends_for_period env symbol start_date end_date shares_owned
        = zeroDivResult) ∧
    zeroDivResult.total_dividends = 0 ∧
    zeroDivResult.dividend_count = 0 ∧
    zeroDivResult.success = true := by
  refine ⟨?_, ?_, rfl, rfl, rfl⟩
  · intro h
    unfold get_dividends_for_period
    dsimp only
    rw [h]
  · intro series h hemp
    unfold get_dividends_for_period
    dsimp only
    rw [h]
    dsimp only
    rw [hemp]
    simp

/-! ## The record builder's arithmetic -/

/-- C3: on the full success path (initial price resolved, current price
resolved), the record builder produces the displayed fields as the
2-decimal rounding of: `sharesPurchased = A / p`,
`currentValue = sharesPurchased * c`, `gainLoss = currentValue - A` and
`totalReturn = gainLoss + dividends`. -/
theorem record_builder_arithmetic_spec (symbol : Str) (dt : ℤ)
    (tk : Option Str) (fb : Bool) (p c A : ℚ) (add : AdditionalInfo)
    (dd : DivResult) (hp : 0 < p) (hA : A ≠ 0) :
    ∃ rec : EtfRecord,
      process_etf_data symbol
        { price := some p, date := some dt, ticker := tk, is_fallback := fb,
          error := none } (some c) add dd A = .ok (.inl rec) ∧
      rec.shares_r = pyRound (A / p) 2 ∧
      rec.current_value_r = pyRound (A / p * c) 2 ∧
      rec.gain_loss_r = pyRound (A / p * c - A) 2 ∧
      rec.total_return_r = pyRound (A / p * c - A + dd.total_dividends) 2 := by
  have key : process_etf_data symbol
      { price := some p, date := some dt, ticker := tk, is_fallback := fb,
        error := none } (some c) add dd A = .ok (.inl
      { symbol_display := if fb then symbol ++ "**".data else symbol,
        initial_price_r := pyRound p 2,
        current_price_r := pyRound c 2,
        nav_r := match add.nav with
          | some v => if v = 0 then none else some (pyRound v 2)
          | none => none,
        etf_size := add.formatted_size,
        etf_size_millions := add.etf_size_millions,
        shares_r := pyRound (A / p) 2,
        current_value_r := pyRound (A / p * c) 2,
        dividends_r := pyRound dd.total_dividends 2,
        gain_loss_r := pyRound (A / p * c - A) 2,
        gain_loss_pct_r := pyRound ((A / p * c - A) / A * 100) 1,
        total_return_r := pyRound (A / p * c - A + dd.total_dividends) 2,
        total_return_pct_r :=
          pyRound ((A / p * c - A + dd.total_dividends) / A * 100) 1,
        verified := "✅ VERIFIED".data,
        actual_start_date := dt,
        is_fallback := fb,
        original_symbol := symbol }) := by
    simp only [process_etf_data]
    rw [if_neg (ne_of_gt hp), if_neg hA]
  exact ⟨_, key, rfl, rfl, rfl, rfl⟩

/-- Witness for C3, the spec's end-to-end scenario: $10,000 at an initial
price of $50.00 buys 200.00 shares; at $55.00 the value is $11,000.00, the
gain $1,000.00, and with $150.00 of dividends the total return is
$1,150.00. -/
theorem record_builder_arithmetic_spec_witness :
    ∃ rec : EtfRecord,
      process_etf_data ("ABC".data)
        { price := some 50, date := some 0, ticker := none,
          is_fallback := false, error := none } (some 55) addInfoNone
        { total_dividends := 150, dividend_per_share := some (3/4),
          dividend_count := 3, success := true, error := none } 10000
        = .ok (.inl rec) ∧
      rec.shares_r = pyRound ((10000 : ℚ) / 50) 2 ∧
      rec.current_value_r = pyRound ((10000 : ℚ) / 50 * 55) 2 ∧
      rec.gain_loss_r = pyRound ((10000 : ℚ) / 50 * 55 - 10000) 2 ∧
      rec.total_return_r = pyRound ((10000 : ℚ) / 50 * 55 - 10000 + 150) 2 :=
  record_builder_arithmetic_spec ("ABC".data) 0 none false 50 55 10000
    addInfoNone
    { total_dividends := 150, dividend_per_share := some (3/4),
      dividend_count := 3, success := true, error := none }
    (by norm_num) (by norm_num)

/-- Counterexample for C4: with `investmentAmount = 0` and a successful
current-price resolution, the record builder raises a division-by-zero
error at `gain_loss_pct = (gain_loss / investment_amount) * 100` instead of
producing a record with `gainLossPercent = 0`. -/
theorem gain_loss_pct_unguarded_cex :
    process_etf_data ("ABC".data)
      { price := some 50, date := some 0, ticker := none,
        is_fallback := false, error := none } (some 55) addInfoNone
      zeroDivResult 0 = .error .zeroDivisionError := by
  simp only [process_etf_data]
  rw [if_neg (by norm_num : ¬ (50 : ℚ) = 0)]
  simp

/-- C4 as amended: the `gainLossPercent` computation divides by
`investmentAmount` with no guard — for `investmentAmount ≠ 0` it computes
`(gainLoss / investmentAmount) * 100` (rounded to 1 decimal) without any
division by zero, but for `investmentAmount = 0` with a successful
current-price resolution the builder raises a division-by-zero error
rather than yielding 0. -/
theorem gain_loss_pct_division_amended (symbol : Str) (dt : ℤ)
    (tk : Option Str) (fb : Bool) (p c : ℚ) (add : AdditionalInfo)
    (dd : DivResult) (hp : p ≠ 0) :
    (∀ A : ℚ, A ≠ 0 →
      ∃ rec : EtfRecord,
        process_etf_data symbol
          { price := some p, date := some dt, ticker := tk, is_fallback := fb,
            error := none } (some c) add dd A = .ok (.inl rec) ∧
        rec.gain_loss_pct_r = pyRound ((A / p * c - A) / A * 100) 1) ∧
    process_etf_data symbol
      { price := some p, date := some dt, ticker := tk, is_fallback := fb,
        error := none } (some c) add dd 0 = .error .zeroDivisionError := by
  constructor
  · intro A hA
    have key : process_etf_data symbol
        { price := some p, date := some dt, ticker := tk, is_fallback := fb,
          error := none } (some c) add dd A = .ok (.inl
        { symbol_display := if fb then symbol ++ "**".data else symbol,
          initial_price_r := pyRound p 2,
          current_price_r := pyRound c 2,
          nav_r := match add.nav with
            | some v => if v = 0 then none else some (pyRound v 2)
            | none => none,
          etf_size := add.formatted_size,
          etf_size_millions := add.etf_size_millions,
          shares_r := pyRound (A / p) 2,
          current_value_r := pyRound (A / p * c) 2,
          dividends_r := pyRound dd.total_dividends 2,
          gain_loss_r := pyRound (A / p * c - A) 2,
          gain_loss_pct_r := pyRound ((A / p * c - A) / A * 100) 1,
          total_return_r := pyRound (A / p * c - A + dd.total_dividends) 2,
          total_return_pct_r :=
            pyRound ((A / p * c - A + dd.total_dividends) / A * 100) 1,
          verified := "✅ VERIFIED".data,
          actual_start_date := dt,
          is_fallback := fb,
          original_symbol := symbol }) := by
      simp only [process_etf_data]
      rw [if_neg hp, if_neg hA]
    exact ⟨_, key, rfl⟩
  · simp only [process_etf_data]
    rw [if_neg hp]
    simp

/-- Witness for the amended C4: at initial price 50.00 and current price
55.00, investment 10,000 yields `gainLossPercent = 10.0`, while investment
0 raises the division-by-zero error. -/
theorem gain_loss_pct_division_amended_witness :
    (∃ rec : EtfRecord,
      process_etf_data ("ABC".data)
        { price := some 50, date := some 0, ticker := none,
          is_fallback := false, error := none } (some 55) addInfoNone
        zeroDivResult 10000 = .ok (.inl rec) ∧
      rec.gain_loss_pct_r
        = pyRound (((10000 : ℚ) / 50 * 55 - 10000) / 10000 * 100) 1) ∧
    process_etf_data ("ABC".data)
      { price := some 50, date := some 0, ticker := none,
        is_fallback := false, error := none } (some 55) addInfoNone
      zeroDivResult 0 = .error .zeroDivisionError := by
  have h := gain_loss_pct_division_amended ("ABC".data) 0 none false 50 55
    addInfoNone zeroDivResult (by norm_num)
  exact ⟨h.1 10000 (by norm_num), h.2⟩

/-! ## Ticker-format expansion -/

/-- A list is never equal to itself extended by a non-empty suffix. -/
theorem self_ne_append (s : Str) {t : Str} (ht : t ≠ []) : s ≠ s ++ t := by
  intro h
  apply ht
  have : s ++ [] = s ++ t := by rw [List.append_nil]; exact h
  exact (List.append_cancel_left this).symm

/-- Appending distinct suffixes to the same base gives distinct strings. -/
theorem append_ne_append (s : Str) {t u : Str} (h : t ≠ u) : s ++ t ≠ s ++ u :=
  fun he => h (List.append_cancel_left he)

/-- C9: the ticker format expander returns an ordered, deduplicated list
beginning with the unmodified base symbol; the exchange-suffix variants are
appended only when the base symbol does not already end in a recognized
suffix (an already-suffixed symbol outside the NEO set yields the singleton
list), and the NEO exception set additionally receives the `.NE` variant.
Concretely, `HHIS` expands to base, `.TO`, `.TSE`, `.AX`, `.L` and `.NE`
forms, while `XYZ.L` stays a singleton. -/
theorem ticker_formats_spec (symbol : Str) :
    let r := get_international_ticker_formats symbol
    r.head? = some symbol ∧
    r.Nodup ∧
    ((recognizedSuffixes.any fun suffix => suffix.isSuffixOf symbol) = true →
      symbol ∉ neoSymbols → r = [symbol]) ∧
    (symbol ∈ neoSymbols → symbol ++ ".NE".data ∈ r) ∧
    get_international_ticker_formats ("HHIS".data) =
      ["HHIS".data, "HHIS.TO".data, "HHIS.TSE".data, "HHIS.AX".data,
        "HHIS.L".data, "HHIS.NE".data] ∧
    get_international_ticker_formats ("XYZ.L".data) = [("XYZ.L".data)] := by
  intro r
  refine ⟨?_, ?_, ?_, ?_, by decide, by decide⟩
  · show (get_international_ticker_formats symbol).head? = some symbol
    unfold get_international_ticker_formats
    dsimp only
    split <;> split <;> rfl
  · show (get_international_ticker_formats symbol).Nodup
    unfold get_international_ticker_formats
    dsimp only
    split
    · rename_i hneo
      have : symbol = "HHIS".data ∨ symbol = "MSTE".data := by
        simpa [neoSymbols] using hneo
      rcases this with h | h <;> subst h <;> decide
    · split
      · have e1 : symbol ≠ symbol ++ ".TO".data := self_ne_append symbol (by decide)
        have e2 : symbol ≠ symbol ++ ".TSE".data := self_ne_append symbol (by decide)
        have e3 : symbol ≠ symbol ++ ".AX".data := self_ne_append symbol (by decide)
        have e4 : symbol ≠ symbol ++ ".L".data := self_ne_append symbol (by decide)
        have e12 : symbol ++ ".TO".data ≠ symbol ++ ".TSE".data :=
          append_ne_append symbol (by decide)
        have e13 : symbol ++ ".TO".data ≠ symbol ++ ".AX".data :=
          append_ne_append symbol (by decide)
        have e14 : symbol ++ ".TO".data ≠ symbol ++ ".L".data :=
          append_ne_append symbol (by decide)
        have e23 : symbol ++ ".TSE".data ≠ symbol ++ ".AX".data :=
          append_ne_append symbol (by decide)
        have e24 : symbol ++ ".TSE".data ≠ symbol ++ ".L".data :=
          append_ne_append symbol (by decide)
        have e34 : symbol ++ ".AX".data ≠ symbol ++ ".L".data :=
          append_ne_append symbol (by decide)
        simp [List.nodup_cons, e1, e2, e3, e4, e12, e13, e14, e23, e24, e34]
      · simp
  · intro hs hn
    show get_international_ticker_formats symbol = [symbol]
    unfold get_international_ticker_formats
    dsimp only
    rw [if_neg hn, if_neg (not_not_intro hs)]
  · intro hn
    show symbol ++ ".NE".data ∈ get_international_ticker_formats symbol
    unfold get_international_ticker_formats
    dsimp only
    rw [if_pos hn]
    simp

/-! ## The batch orchestrator -/

/-- C8 fails on the code: `Analysis.main` does not produce one record per
symbol.  Quite apart from the `IndentationError` at line 26 (`results = []`
dedented to column 0, making the module unloadable), the `'🔴 ERROR'`
append of lines 105-117 is dedented out of the `except` block and out of
the loop, so a batch of one successfully processed symbol yields two
records (working 1 + failed 1 ≠ N = 1), and a batch of two symbols whose
processing raises yields a single `'🔴 ERROR'` record for the last symbol
only (working 0 + failed 1 ≠ N = 2). -/
theorem batch_partition_failing_eval :
    ((mainResults 10000 (fun _ => .primary exampleRecord)
        [("FSCO".data)]).map fun records =>
      ((workingEtfs records).length, (failedEtfs records).length,
        records.length)) = some (1, 1, 2) ∧
    ((mainResults 10000 (fun _ => .raised)
        [("FSCO".data), ("EIC".data)]).map fun records =>
      ((workingEtfs records).length, (failedEtfs records).length,
        records.length)) = some (0, 1, 1) := by
  exact ⟨rfl, rfl⟩

end Analyzer
